import Mathlib

/-!
Verification of the client-side stream reducer of localstack-studio
(`frontend/src/features/sqs/hooks/useQueueMessages.js`).

The hook maintains, per selected queue, a bounded ordered collection of
messages received over a WebSocket, together with connection state
(`isConnected`, `isLoading`, `error`), a pending reconnect timer and a
pending initial-wait ("loading") timer.  We embed the message data model,
the `setMessages` updater (dedup by `messageId` via a JS `Map`, stable
sort by the parsed `SentTimestamp` attribute, `slice(0, 100)`), and the
event handlers (`onopen`, `onmessage`, `onerror`, `onclose`, the two
timer callbacks, the queue-change effect, teardown and `clearMessages`)
as a state machine over an explicit `HookState`.
-/

namespace QueueMessages

/-- A queue message as handled by the hook: `messageId`, `body`, the
`attributes` string-to-string mapping (carrying `SentTimestamp`), the
client-assigned `receivedAt`, and the tagging `queue` name.
(`messageAttributes` and `receiptHandle` are never read by the reducer
and are omitted.) -/
structure Message where
  messageId : String
  body : String
  attributes : List (String × String)
  receivedAt : String
  queue : String
deriving DecidableEq, Repr

/-- A successfully JSON-parsed stream event `{ queue, message }`. -/
structure EventData where
  queue : String
  message : Message
deriving DecidableEq, Repr

/-- `parseInt` on the digit strings the code actually feeds it
(`SentTimestamp` is a decimal Unix-milliseconds string; the `|| '0'`
fallback yields `"0"`): the value of the longest leading digit run,
`0` when there is none. -/
def jsParseIntDigits (s : String) : Nat :=
  (s.data.takeWhile Char.isDigit).foldl (fun n c => 10 * n + (c.toNat - 48)) 0

/-- `parseInt(m.attributes?.SentTimestamp || '0')`: a missing attributes
mapping or a missing/empty `SentTimestamp` entry yields `0`. -/
def sentTime (m : Message) : Nat :=
  jsParseIntDigits ((m.attributes.lookup ("SentTimestamp")).getD ("0"))

/-- The JS comparator passed to `Array.prototype.sort`:
`timeB - timeA` for `'newest-first'`, else `timeA - timeB`. -/
def jsComparator (sortOrder : String) (a b : Message) : Int :=
  if sortOrder = "newest-first" then (sentTime b : Int) - (sentTime a : Int)
  else (sentTime a : Int) - (sentTime b : Int)

/-- The ordering induced by the comparator: `a` sorts no later than `b`
iff the comparator is non-positive.  `Array.prototype.sort` is required
to be stable, so we model it below by a stable sort w.r.t. this
relation. -/
def sortRel (sortOrder : String) (a b : Message) : Prop :=
  jsComparator sortOrder a b ≤ 0

instance (so : String) : DecidableRel (sortRel so) :=
  fun a b => inferInstanceAs (Decidable (jsComparator so a b ≤ 0))

instance (so : String) : IsTotal Message (sortRel so) where
  total a b := by
    unfold sortRel jsComparator
    split <;> omega

instance (so : String) : IsTrans Message (sortRel so) where
  trans a b c := by
    unfold sortRel jsComparator
    split <;> omega

/-- One `Map.set(msg.messageId, msg)` step on a JS `Map` represented as
its entry list in insertion order: an existing key keeps its position and
gets the new value; a new key is appended. -/
def mapInsert (m : List Message) (msg : Message) : List Message :=
  if m.any (fun x => x.messageId = msg.messageId) then
    m.map (fun x => if x.messageId = msg.messageId then msg else x)
  else m ++ [msg]

/-- `prev.forEach(msg => messageMap.set(msg.messageId, msg))` starting
from an empty `Map`: the deduplicated entry list, keys in first-insertion
order, values last-write-wins. -/
def toMessageMap (prev : List Message) : List Message :=
  prev.foldl mapInsert []

/-- The `setMessages` updater body: rebuild the `Map` from `prev`, upsert
the (already tagged) new message, sort the values stably by the
comparator, and `slice(0, 100)`. -/
def mergeMessage (sortOrder : String) (prev : List Message) (newMsg : Message) :
    List Message :=
  (List.insertionSort (sortRel sortOrder) (mapInsert (toMessageMap prev) newMsg)).take 100

/-- The hook's state: the `useState` cells, the current `queueName` and
`sortOrder` props, whether a WebSocket object is live (`wsAlive`:
`wsRef.current` exists and is not closed), and the pending timers as
`Option` of their delay in milliseconds (`none` = no pending timer). -/
structure HookState where
  queueName : String
  sortOrder : String
  messages : List Message
  isConnected : Bool
  isLoading : Bool
  error : Option String
  wsAlive : Bool
  reconnectTimeout : Option Nat
  loadingTimeout : Option Nat
deriving DecidableEq, Repr

/-- `connect()`: bails out when `queueName` is falsy (empty) or a socket
is already live; otherwise creates the WebSocket. -/
def connect (s : HookState) : HookState :=
  if s.queueName = "" ∨ s.wsAlive then s else { s with wsAlive := true }

/-- `ws.onopen`: connected, loading, error cleared, and the 3000 ms
initial-wait ("stop loading even if the queue is empty") timer started. -/
def onOpen (s : HookState) : HookState :=
  { s with isConnected := true, isLoading := true, error := none,
           loadingTimeout := some 3000 }

/-- The initial-wait timer firing: `setIsLoading(false)`. -/
def loadingTimeoutFires (s : HookState) : HookState :=
  { s with isLoading := false, loadingTimeout := none }

/-- `ws.onmessage`.  The argument models `JSON.parse(event.data)`:
`none` is a payload that fails to parse, in which case the `catch`
swallows the error and the state is untouched.  A parsed event tagged
with a queue other than the current one is dropped.  Otherwise the
initial-wait timer is canceled, loading ends, and the message — spread
and tagged with `receivedAt := now` and the event's queue — is merged. -/
def onMessage (now : String) (s : HookState) (ev : Option EventData) : HookState :=
  match ev with
  | none => s
  | some data =>
    if data.queue ≠ s.queueName then s
    else
      { s with loadingTimeout := none, isLoading := false,
               messages := mergeMessage s.sortOrder s.messages
                 { data.message with receivedAt := now, queue := data.queue } }

/-- `ws.onerror`: sets the visible error flag and clears `isConnected`;
the socket itself is not closed here. -/
def onError (s : HookState) : HookState :=
  { s with error := some ("WebSocket connection error"), isConnected := false }

/-- `ws.onclose`: the socket is no longer live, `isConnected` is cleared,
and a reconnect is scheduled after a fixed 3000 ms backoff. -/
def onClose (s : HookState) : HookState :=
  { s with isConnected := false, wsAlive := false, reconnectTimeout := some 3000 }

/-- The reconnect timer firing: calls `connect()`. -/
def reconnectTimeoutFires (s : HookState) : HookState :=
  connect { s with reconnectTimeout := none }

/-- The cleanup half of the queue-change effect: clear the collection,
the error and the loading flag, close any existing socket, and cancel
both pending timers. -/
def effectCleanup (newQueue : String) (s : HookState) : HookState :=
  { s with queueName := newQueue, messages := [], error := none,
           isLoading := false, wsAlive := false,
           reconnectTimeout := none, loadingTimeout := none }

/-- The `useEffect` body on a queue change: cleanup, then `connect()`. -/
def effectSwitch (newQueue : String) (s : HookState) : HookState :=
  connect (effectCleanup newQueue s)

/-- The effect's cleanup function (unmount / teardown): cancels both
pending timers and closes the socket. -/
def teardown (s : HookState) : HookState :=
  { s with reconnectTimeout := none, loadingTimeout := none, wsAlive := false }

/-- `clearMessages()`: `setMessages([])` and nothing else. -/
def clearMessages (s : HookState) : HookState :=
  { s with messages := [] }

/-- The events the hook's state can react to.  `msg now raw` is a
WebSocket message event arriving at client time `now` whose payload
parses to `raw` (`none` = malformed JSON). -/
inductive HookEvent where
  | opened
  | msg (now : String) (raw : Option EventData)
  | wsError
  | closed
  | reconnectFires
  | loadingFires
  | switchQueue (q : String)
  | unmount
  | clear
deriving DecidableEq, Repr

/-- One step of the hook's state machine. -/
def step (s : HookState) : HookEvent → HookState
  | .opened => onOpen s
  | .msg now raw => onMessage now s raw
  | .wsError => onError s
  | .closed => onClose s
  | .reconnectFires => reconnectTimeoutFires s
  | .loadingFires => loadingTimeoutFires s
  | .switchQueue q => effectSwitch q s
  | .unmount => teardown s
  | .clear => clearMessages s

/-- Run a sequence of events. -/
def run (s : HookState) (es : List HookEvent) : HookState :=
  es.foldl step s

/-- The state right after mounting the hook with props `q` and `so`:
the `useState` initial values, followed by the mount effect (which from
empty state just calls `connect()`). -/
def initState (q so : String) : HookState :=
  effectSwitch q
    { queueName := q, sortOrder := so, messages := [], isConnected := false,
      isLoading := false, error := none, wsAlive := false,
      reconnectTimeout := none, loadingTimeout := none }

/-- One turn of the unbounded reconnection loop: the transport closes
(scheduling the 3 s backoff) and then the backoff timer fires. -/
def closeReconnectCycle (s : HookState) : HookState :=
  reconnectTimeoutFires (onClose s)

/-! ### Concrete test data -/

/-- A message for queue `"q"` whose id and `SentTimestamp` are both the
decimal rendering of `i`. -/
def mkMsg (i : Nat) : Message :=
  { messageId := toString i, body := "b",
    attributes := [(("SentTimestamp"), toString i)],
    receivedAt := "", queue := "q" }

/-- A full collection: 100 distinct messages with sent-times 0..99. -/
def prevFull : List Message :=
  (List.range 100).map mkMsg

/-- A fresh message newer than everything in `prevFull`. -/
def newestMsg : Message :=
  { messageId := "new", body := "b",
    attributes := [(("SentTimestamp"), ("200"))],
    receivedAt := "", queue := "q" }

/-- A hook state watching `"q"` with the default ascending order and a
full collection. -/
def sFull : HookState :=
  { queueName := "q", sortOrder := "oldest-first", messages := prevFull,
    isConnected := true, isLoading := false, error := none, wsAlive := true,
    reconnectTimeout := none, loadingTimeout := none }

/-- The arrival event delivering the duplicate-tested message: id
`"dup"`, sent-time 200, tagged for queue `"q"`. -/
def dupMsg : Message :=
  { messageId := "dup", body := "b",
    attributes := [(("SentTimestamp"), ("200"))],
    receivedAt := "", queue := "q" }

/-- A pure arrival-event sequence for queue `"q"`: 100 distinct messages
(sent-times 0..99) followed by the same message `dupMsg` delivered
twice. -/
def eventsDupTwice : List HookEvent :=
  ((List.range 100).map (fun i => HookEvent.msg "" (some ⟨"q", mkMsg i⟩))) ++
    [HookEvent.msg "" (some ⟨"q", dupMsg⟩), HookEvent.msg "" (some ⟨"q", dupMsg⟩)]

/-- Scenario message `m1`: sent-time 100. -/
def scenM1 : Message :=
  { messageId := "m1", body := "b1",
    attributes := [(("SentTimestamp"), ("100"))],
    receivedAt := "", queue := "orders" }

/-- Scenario message `m2`: sent-time 50. -/
def scenM2 : Message :=
  { messageId := "m2", body := "b2",
    attributes := [(("SentTimestamp"), ("50"))],
    receivedAt := "", queue := "orders" }

/-- A small state watching `"q"` used to instantiate witnesses. -/
def sSmall : HookState :=
  { queueName := "q", sortOrder := "oldest-first", messages := [mkMsg 3],
    isConnected := true, isLoading := true, error := none, wsAlive := true,
    reconnectTimeout := some 3000, loadingTimeout := some 3000 }

/-- A message with no attributes at all (so no `SentTimestamp`). -/
def msgNoTs : Message :=
  { messageId := "nt", body := "b", attributes := [], receivedAt := "", queue := "q" }

/-- A message with a positive `SentTimestamp`. -/
def msgPosTs : Message :=
  { messageId := "pt", body := "b",
    attributes := [(("SentTimestamp"), ("5"))],
    receivedAt := "", queue := "q" }

/-! ### Helper lemmas about the merge -/

/-- Every member of `mapInsert l m` is a member of `l` or is `m`. -/
lemma mem_mapInsert {l : List Message} {m x : Message} (hx : x ∈ mapInsert l m) :
    x ∈ l ∨ x = m := by
  unfold mapInsert at hx
  split at hx
  · rcases List.mem_map.mp hx with ⟨y, hy, hxy⟩
    by_cases h : y.messageId = m.messageId
    · right; rw [if_pos h] at hxy; exact hxy.symm
    · left; rw [if_neg h] at hxy; exact hxy ▸ hy
  · rcases List.mem_append.mp hx with h | h
    · exact Or.inl h
    · exact Or.inr (List.mem_singleton.mp h)

/-- Every member of the rebuilt `Map`'s value list is a member of `prev`. -/
lemma mem_toMessageMap {prev : List Message} {x : Message}
    (hx : x ∈ toMessageMap prev) : x ∈ prev := by
  suffices h : ∀ (l : List Message) (acc : List Message),
      x ∈ l.foldl mapInsert acc → x ∈ acc ∨ x ∈ l by
    rcases h prev [] hx with h' | h'
    · cases h'
    · exact h'
  intro l
  induction l with
  | nil => intro acc h; exact Or.inl h
  | cons y ys ih =>
    intro acc h
    rcases ih (mapInsert acc y) h with h' | h'
    · rcases mem_mapInsert h' with h'' | h''
      · exact Or.inl h''
      · exact Or.inr (h'' ▸ List.mem_cons_self y ys)
    · exact Or.inr (List.mem_cons_of_mem y h')

/-- Every member of the merged collection comes from `prev` or is the new
message. -/
lemma mem_mergeMessage {so : String} {prev : List Message} {m x : Message}
    (hx : x ∈ mergeMessage so prev m) : x ∈ prev ∨ x = m := by
  unfold mergeMessage at hx
  have hx' := List.take_subset _ _ hx
  rw [List.mem_insertionSort] at hx'
  rcases mem_mapInsert hx' with h | h
  · exact Or.inl (mem_toMessageMap h)
  · exact Or.inr h

/-- The collection's key-uniqueness property: no two entries share a
`messageId`. -/
def NodupIds (l : List Message) : Prop :=
  (l.map Message.messageId).Nodup

instance (l : List Message) : Decidable (NodupIds l) :=
  inferInstanceAs (Decidable (l.map Message.messageId).Nodup)

/-- Updating an existing key in place does not change the key list;
appending a fresh key extends it by a key not yet present.  Either way
key-uniqueness is preserved. -/
lemma nodupIds_mapInsert {l : List Message} (m : Message) (h : NodupIds l) :
    NodupIds (mapInsert l m) := by
  unfold mapInsert
  split
  · have : (l.map (fun x => if x.messageId = m.messageId then m else x)).map
        Message.messageId = l.map Message.messageId := by
      rw [List.map_map]
      apply List.map_congr_left
      intro x _
      by_cases hx : x.messageId = m.messageId
      · simp [hx]
      · simp [hx]
    unfold NodupIds
    rw [this]
    exact h
  · unfold NodupIds
    rw [List.map_append]
    next hany =>
    rw [List.nodup_append]
    refine ⟨h, List.nodup_singleton _, ?_⟩
    intro a ha hb
    rcases List.mem_map.mp ha with ⟨x, hx, hax⟩
    rw [List.map_singleton, List.mem_singleton] at hb
    subst hb
    exact hany (List.any_eq_true.mpr ⟨x, hx, decide_eq_true hax⟩)

/-- The rebuilt `Map` never holds two entries with the same key. -/
lemma nodupIds_toMessageMap (prev : List Message) : NodupIds (toMessageMap prev) := by
  suffices h : ∀ (l acc : List Message), NodupIds acc → NodupIds (l.foldl mapInsert acc) from
    h prev [] (by simp [NodupIds])
  intro l
  induction l with
  | nil => intro acc h; exact h
  | cons y ys ih => intro acc h; exact ih (mapInsert acc y) (nodupIds_mapInsert y h)

/-- Key-uniqueness survives the stable sort (a permutation) and the
truncation (a sublist). -/
lemma nodupIds_mergeMessage (so : String) (prev : List Message) (m : Message) :
    NodupIds (mergeMessage so prev m) := by
  have h1 : NodupIds (mapInsert (toMessageMap prev) m) :=
    nodupIds_mapInsert m (nodupIds_toMessageMap prev)
  have hperm : List.Perm
      ((List.insertionSort (sortRel so) (mapInsert (toMessageMap prev) m)).map
        Message.messageId)
      ((mapInsert (toMessageMap prev) m).map Message.messageId) :=
    (List.perm_insertionSort (sortRel so) _).map Message.messageId
  have h2 : NodupIds (List.insertionSort (sortRel so) (mapInsert (toMessageMap prev) m)) :=
    hperm.nodup_iff.mpr h1
  unfold mergeMessage NodupIds
  exact ((List.take_sublist 100 _).map Message.messageId).nodup h2

/-- Last-write-wins: any entry of the merged collection carrying the new
message's id *is* the new message. -/
lemma mergeMessage_latest {so : String} {prev : List Message} {m x : Message}
    (hx : x ∈ mergeMessage so prev m) (hid : x.messageId = m.messageId) : x = m := by
  unfold mergeMessage at hx
  have hx' := List.take_subset _ _ hx
  rw [List.mem_insertionSort] at hx'
  unfold mapInsert at hx'
  split at hx'
  · rcases List.mem_map.mp hx' with ⟨y, _, hxy⟩
    by_cases h : y.messageId = m.messageId
    · rw [if_pos h] at hxy; exact hxy.symm
    · rw [if_neg h] at hxy; exact absurd (hxy ▸ hid) h
  · next hany =>
    rcases List.mem_append.mp hx' with h | h
    · exact absurd (List.any_eq_true.mpr ⟨x, h, decide_eq_true hid⟩) hany
    · exact List.mem_singleton.mp h

/-- The new message is always present in the updated `Map`. -/
lemma self_mem_mapInsert (l : List Message) (m : Message) : m ∈ mapInsert l m := by
  unfold mapInsert
  split
  · next hany =>
    rcases List.any_eq_true.mp hany with ⟨y, hy, hyid⟩
    have h' : y.messageId = m.messageId := of_decide_eq_true hyid
    refine List.mem_map.mpr ⟨y, hy, ?_⟩
    simp [h']
  · exact List.mem_append_right l (List.mem_singleton.mpr rfl)

/-- In a key-unique list containing `x`, exactly one entry carries `x`'s
id. -/
lemma countP_id_eq_one {l : List Message} {x : Message} (hnd : NodupIds l) (hx : x ∈ l) :
    l.countP (fun y => y.messageId == x.messageId) = 1 := by
  have h1 : l.countP (fun y => y.messageId == x.messageId) =
      (l.map Message.messageId).countP (fun s => s == x.messageId) := by
    rw [List.countP_map]
    rfl
  rw [h1]
  have hmem : x.messageId ∈ l.map Message.messageId := List.mem_map_of_mem _ hx
  exact List.count_eq_one_of_mem hnd hmem

/-- The merged collection is sorted by the comparator's ordering. -/
lemma sorted_mergeMessage (so : String) (prev : List Message) (m : Message) :
    (mergeMessage so prev m).Pairwise (sortRel so) :=
  List.Pairwise.sublist (List.take_sublist 100 _)
    (List.sorted_insertionSort (sortRel so) (mapInsert (toMessageMap prev) m))

/-- Under the default ascending order the comparator's ordering is
exactly non-decreasing `SentTimestamp`. -/
lemma sortRel_oldest_iff (a b : Message) :
    sortRel ("oldest-first") a b ↔ sentTime a ≤ sentTime b := by
  unfold sortRel jsComparator
  rw [if_neg (by decide)]
  omega

/-! ### State-machine invariant lemmas -/

/-- `connect` touches only `wsAlive`. -/
lemma connect_frame (s : HookState) :
    (connect s).queueName = s.queueName ∧ (connect s).sortOrder = s.sortOrder ∧
    (connect s).messages = s.messages ∧ (connect s).isConnected = s.isConnected ∧
    (connect s).isLoading = s.isLoading ∧ (connect s).error = s.error ∧
    (connect s).reconnectTimeout = s.reconnectTimeout ∧
    (connect s).loadingTimeout = s.loadingTimeout := by
  unfold connect
  split <;> exact ⟨rfl, rfl, rfl, rfl, rfl, rfl, rfl, rfl⟩

/-- No event changes the `sortOrder` prop. -/
lemma step_sortOrder (s : HookState) (e : HookEvent) :
    (step s e).sortOrder = s.sortOrder := by
  cases e with
  | opened => rfl
  | msg now raw =>
    cases raw with
    | none => rfl
    | some data =>
      simp only [step, onMessage]
      split <;> rfl
  | wsError => rfl
  | closed => rfl
  | reconnectFires =>
    simp only [step, reconnectTimeoutFires, connect]
    split <;> rfl
  | loadingFires => rfl
  | switchQueue q =>
    simp only [step, effectSwitch, effectCleanup, connect]
    split <;> rfl
  | unmount => rfl
  | clear => rfl

/-- No event changes the selected `queueName` except an explicit switch,
which sets it to the new queue. -/
lemma step_queueName (s : HookState) (e : HookEvent) :
    (step s e).queueName = s.queueName ∨ ∃ q, e = HookEvent.switchQueue q ∧
      (step s e).queueName = q := by
  cases e with
  | opened => exact Or.inl rfl
  | msg now raw =>
    cases raw with
    | none => exact Or.inl rfl
    | some data =>
      left
      simp only [step, onMessage]
      split <;> rfl
  | wsError => exact Or.inl rfl
  | closed => exact Or.inl rfl
  | reconnectFires =>
    left
    simp only [step, reconnectTimeoutFires, connect]
    split <;> rfl
  | loadingFires => exact Or.inl rfl
  | switchQueue q =>
    right
    refine ⟨q, rfl, ?_⟩
    simp only [step, effectSwitch, effectCleanup, connect]
    split <;> rfl
  | unmount => exact Or.inl rfl
  | clear => exact Or.inl rfl

/-- After any event the collection is unchanged, emptied, or the result
of merging an admitted message tagged with the current queue. -/
lemma step_messages (s : HookState) (e : HookEvent) :
    (step s e).messages = s.messages ∨ (step s e).messages = [] ∨
    ∃ now data, e = HookEvent.msg now (some data) ∧ data.queue = s.queueName ∧
      (step s e).messages = mergeMessage s.sortOrder s.messages
        { data.message with receivedAt := now, queue := data.queue } := by
  cases e with
  | opened => exact Or.inl rfl
  | msg now raw =>
    cases raw with
    | none => exact Or.inl rfl
    | some data =>
      by_cases h : data.queue = s.queueName
      · refine Or.inr (Or.inr ⟨now, data, rfl, h, ?_⟩)
        simp only [step, onMessage]
        rw [if_neg (by simpa using h)]
      · left
        simp only [step, onMessage]
        rw [if_pos (by simpa using h)]
  | wsError => exact Or.inl rfl
  | closed => exact Or.inl rfl
  | reconnectFires =>
    left
    simp only [step, reconnectTimeoutFires, connect]
    split <;> rfl
  | loadingFires => exact Or.inl rfl
  | switchQueue q =>
    right; left
    simp only [step, effectSwitch, effectCleanup, connect]
    split <;> rfl
  | unmount => exact Or.inl rfl
  | clear => exact Or.inr (Or.inl rfl)

/-- Once the selected queue differs from `A` and no collection entry is
tagged `A`, no run that never switches back to `A` can ever admit an
`A`-tagged entry. -/
lemma run_no_stale (A : String) :
    ∀ (es : List HookEvent) (s : HookState), s.queueName ≠ A →
      (∀ m ∈ s.messages, m.queue ≠ A) →
      (∀ q, HookEvent.switchQueue q ∈ es → q ≠ A) →
      (run s es).queueName ≠ A ∧ ∀ m ∈ (run s es).messages, m.queue ≠ A := by
  intro es
  induction es with
  | nil => intro s h1 h2 _; exact ⟨h1, h2⟩
  | cons e es ih =>
    intro s h1 h2 hes
    have hq' : (step s e).queueName ≠ A := by
      rcases step_queueName s e with h | ⟨q, he, h⟩
      · rw [h]; exact h1
      · rw [h]; exact hes q (he ▸ List.mem_cons_self e es)
    have hm' : ∀ m ∈ (step s e).messages, m.queue ≠ A := by
      rcases step_messages s e with h | h | ⟨now, data, _, hq, h⟩
      · rw [h]; exact h2
      · rw [h]; intro m hm; cases hm
      · rw [h]; intro m hm
        rcases mem_mergeMessage hm with hmem | hmem
        · exact h2 m hmem
        · subst hmem
          simpa [hq] using h1
    exact ih (step s e) hq' hm' (fun q hq => hes q (List.mem_cons_of_mem e hq))

/-- The collection stays sorted by the comparator's ordering throughout
any run. -/
lemma run_sorted (so : String) :
    ∀ (es : List HookEvent) (s : HookState), s.sortOrder = so →
      s.messages.Pairwise (sortRel so) →
      (run s es).messages.Pairwise (sortRel so) := by
  intro es
  induction es with
  | nil => intro s _ h2; exact h2
  | cons e es ih =>
    intro s h1 h2
    refine ih (step s e) (by rw [step_sortOrder, h1]) ?_
    rcases step_messages s e with h | h | ⟨now, data, _, _, h⟩
    · rw [h]; exact h2
    · rw [h]; exact List.Pairwise.nil
    · rw [h, h1]; exact sorted_mergeMessage so s.messages _

/-- Key-uniqueness of the collection is an invariant of every run. -/
lemma run_nodupIds :
    ∀ (es : List HookEvent) (s : HookState), NodupIds s.messages →
      NodupIds (run s es).messages := by
  intro es
  induction es with
  | nil => intro s h; exact h
  | cons e es ih =>
    intro s h
    refine ih (step s e) ?_
    rcases step_messages s e with h' | h' | ⟨now, data, _, _, h'⟩
    · rw [h']; exact h
    · rw [h']; simp [NodupIds]
    · rw [h']; exact nodupIds_mergeMessage _ _ _

/-- A reconnect cycle leaves the collection untouched. -/
lemma closeReconnectCycle_messages (s : HookState) :
    (closeReconnectCycle s).messages = s.messages := by
  unfold closeReconnectCycle reconnectTimeoutFires
  rw [(connect_frame _).2.2.1]
  rfl

/-- Iterated reconnect cycles leave the collection untouched. -/
lemma closeReconnectCycle_iterate_messages (n : Nat) (s : HookState) :
    (closeReconnectCycle^[n] s).messages = s.messages := by
  induction n generalizing s with
  | zero => rfl
  | succ k ih =>
    rw [Function.iterate_succ_apply]
    rw [ih (closeReconnectCycle s), closeReconnectCycle_messages]

/-! ### Claim theorems -/

set_option maxRecDepth 200000 in
/-- Claim C1, evaluated at its failing input.  The claim says the merge
keeps the most recent 100 entries (eviction removes the oldest first)
for both sort orders.  The code does `.sort(...).slice(0, 100)`, keeping
the *first* 100 entries of the sorted array, which under the default
ascending order are the *oldest* 100 — contradicting the claim and the
code's own comment "Keep last 100 unique messages".  Here a full
collection (sent-times 0..99) receives an admitted message with
sent-time 200: the merged collection still has 100 entries but the new,
most recent message is evicted and the oldest (sent-time 0) is kept. -/
theorem slice_keeps_oldest_not_most_recent :
    (onMessage ("") sFull (some ⟨("q"), newestMsg⟩)).messages.length = 100 ∧
    ((onMessage ("") sFull (some ⟨("q"), newestMsg⟩)).messages.all
      (fun m => m.messageId != "new")) = true ∧
    ((onMessage ("") sFull (some ⟨("q"), newestMsg⟩)).messages.any
      (fun m => sentTime m = 0)) = true := by
  decide

set_option maxRecDepth 200000 in
/-- Claim C2, counterexample.  Starting from a freshly mounted hook on
queue `"q"`, deliver 100 distinct messages (sent-times 0..99) and then
the same message `dupMsg` (sent-time 200) twice.  The claim demands the
collection then hold exactly one entry for `dupMsg`'s id, but the
100-entry truncation evicts it entirely: it holds zero. -/
theorem dedup_exactly_one_cex :
    ¬ ((run (initState ("q") ("oldest-first")) eventsDupTwice).messages.countP
        (fun m => m.messageId == "dup") = 1) := by
  decide

/-- Claim C2, amended: over any event sequence the collection never
holds two entries with the same `messageId`; any retained entry carrying
the delivered message's id is exactly the latest delivered payload; and
the count is exactly one whenever the deduplicated merge result does not
exceed the 100-entry bound (so no eviction interferes). -/
theorem dedup_upsert_amended (s0 : HookState) (es : List HookEvent)
    (h0 : NodupIds s0.messages) (so : String) (prev : List Message) (m : Message)
    (hlen : (mapInsert (toMessageMap prev) m).length ≤ 100) :
    NodupIds (run s0 es).messages ∧
    (∀ x ∈ mergeMessage so prev m, x.messageId = m.messageId → x = m) ∧
    (mergeMessage so prev m).countP (fun y => y.messageId == m.messageId) = 1 := by
  refine ⟨run_nodupIds es s0 h0, fun x hx hid => mergeMessage_latest hx hid, ?_⟩
  have hperm : List.Perm (List.insertionSort (sortRel so) (mapInsert (toMessageMap prev) m))
      (mapInsert (toMessageMap prev) m) := List.perm_insertionSort _ _
  have hlen' : (List.insertionSort (sortRel so) (mapInsert (toMessageMap prev) m)).length ≤ 100 := by
    rw [List.length_insertionSort]
    exact hlen
  unfold mergeMessage
  rw [List.take_of_length_le hlen', hperm.countP_eq]
  exact countP_id_eq_one (nodupIds_mapInsert m (nodupIds_toMessageMap prev))
    (self_mem_mapInsert _ m)

/-- Witness for the amended C2 at a concrete input: a one-message
collection receiving `dupMsg`. -/
theorem dedup_upsert_amended_witness :
    NodupIds (run sSmall []).messages ∧
    (∀ x ∈ mergeMessage ("oldest-first") [mkMsg 3] dupMsg,
      x.messageId = dupMsg.messageId → x = dupMsg) ∧
    (mergeMessage ("oldest-first") [mkMsg 3] dupMsg).countP
      (fun y => y.messageId == dupMsg.messageId) = 1 :=
  dedup_upsert_amended sSmall [] (by decide) ("oldest-first") [mkMsg 3] dupMsg (by decide)

/-- Claim C3: a parsed stream event tagged with a queue different from
the currently selected one is silently dropped — the handler returns the
state completely unchanged (collection, flags, timers and connection
included). -/
theorem cross_queue_event_dropped (s : HookState) (now : String) (data : EventData)
    (h : data.queue ≠ s.queueName) : onMessage now s (some data) = s := by
  simp only [onMessage]
  rw [if_pos h]

/-- Witness for C3: an event tagged `"other"` while `"q"` is selected. -/
theorem cross_queue_event_dropped_witness :
    onMessage ("") sSmall (some ⟨("other"), dupMsg⟩) = sSmall :=
  cross_queue_event_dropped sSmall ("") ⟨("other"), dupMsg⟩ (by decide)

/-- Claim C4: switching the selected queue from `A` to `B` empties the
collection; the effect closes the prior socket and cancels both pending
timers before `connect()` opens the new one (the switch is literally
`connect` after the cleanup); and no later event tagged `A` is ever
admitted as long as no switch back to `A` occurs. -/
theorem queue_switch_clears_and_blocks_stale (s : HookState) (A B : String)
    (_hA : s.queueName = A) (hAB : A ≠ B) :
    (effectSwitch B s).messages = [] ∧
    effectSwitch B s = connect (effectCleanup B s) ∧
    (effectCleanup B s).wsAlive = false ∧
    (effectCleanup B s).reconnectTimeout = none ∧
    (effectCleanup B s).loadingTimeout = none ∧
    ∀ es : List HookEvent, (∀ q, HookEvent.switchQueue q ∈ es → q ≠ A) →
      ∀ m ∈ (run (effectSwitch B s) es).messages, m.queue ≠ A := by
  have hmsgs : (effectSwitch B s).messages = [] := by
    unfold effectSwitch
    rw [(connect_frame _).2.2.1]
    rfl
  have hq : (effectSwitch B s).queueName = B := by
    unfold effectSwitch
    rw [(connect_frame _).1]
    rfl
  refine ⟨hmsgs, rfl, rfl, rfl, rfl, fun es hes => ?_⟩
  exact (run_no_stale A es (effectSwitch B s) (by rw [hq]; exact hAB.symm)
    (by rw [hmsgs]; intro m hm; cases hm) hes).2

/-- Witness for C4: switch from `"q"` to `"p"`, then a stale `"q"`-tagged
event arrives; nothing tagged `"q"` is admitted. -/
theorem queue_switch_clears_and_blocks_stale_witness :
    (effectSwitch ("p") sSmall).messages = [] ∧
    ((run (effectSwitch ("p") sSmall)
        [HookEvent.msg ("") (some ⟨("q"), dupMsg⟩)]).messages.all
      (fun m => m.queue != "q")) = true := by
  have h := queue_switch_clears_and_blocks_stale sSmall ("q") ("p") rfl (by decide)
  refine ⟨h.1, ?_⟩
  have h6 := h.2.2.2.2.2 [HookEvent.msg ("") (some ⟨("q"), dupMsg⟩)]
    (by intro q hq; simp at hq)
  rw [List.all_eq_true]
  intro m hm
  simpa using h6 m hm

/-- Claim C5: a transport close always schedules a reconnect after the
fixed 3000 ms backoff and preserves the collection; the backoff firing
(reconnect attempt) also preserves it; this holds after any number `n`
of close/reconnect cycles, with the `n`-th close scheduling the same
fixed backoff again (no retry cutoff); and only a queue switch or
teardown cancel the pending reconnect. -/
theorem reconnect_unbounded_and_preserving (s : HookState) (n : Nat) (b : String) :
    (onClose s).reconnectTimeout = some 3000 ∧
    (onClose s).messages = s.messages ∧
    (reconnectTimeoutFires s).messages = s.messages ∧
    (closeReconnectCycle^[n] s).messages = s.messages ∧
    (onClose (closeReconnectCycle^[n] s)).reconnectTimeout = some 3000 ∧
    (effectSwitch b s).reconnectTimeout = none ∧
    (teardown s).reconnectTimeout = none := by
  refine ⟨rfl, rfl, ?_, closeReconnectCycle_iterate_messages n s, rfl, ?_, rfl⟩
  · unfold reconnectTimeoutFires
    rw [(connect_frame _).2.2.1]
  · unfold effectSwitch
    rw [(connect_frame _).2.2.2.2.2.2.1]
    rfl

/-- Claim C6: delivering `m1` (sent-time 100) then `m2` (sent-time 50)
to a fresh hook on `"orders"` with the default ascending order yields
the collection `[m2, m1]`; and in general, over any event sequence under
the default order, the collection is pairwise non-decreasing in the
parsed `SentTimestamp`. -/
theorem ascending_scenario_and_sorted :
    (run (initState ("orders") ("oldest-first"))
        [HookEvent.msg ("t1") (some ⟨("orders"), scenM1⟩),
         HookEvent.msg ("t2") (some ⟨("orders"), scenM2⟩)]).messages =
      [{ scenM2 with receivedAt := ("t2"), queue := ("orders") },
       { scenM1 with receivedAt := ("t1"), queue := ("orders") }] ∧
    ∀ (q : String) (es : List HookEvent),
      ((run (initState q ("oldest-first")) es).messages).Pairwise
        (fun a b => sentTime a ≤ sentTime b) := by
  constructor
  · decide
  · intro q es
    have hso : (initState q ("oldest-first")).sortOrder = "oldest-first" := by
      unfold initState effectSwitch
      rw [(connect_frame _).2.1]
      rfl
    have hmsgs : (initState q ("oldest-first")).messages = [] := by
      unfold initState effectSwitch
      rw [(connect_frame _).2.2.1]
      rfl
    have h := run_sorted ("oldest-first") es (initState q ("oldest-first")) hso
      (by rw [hmsgs]; exact List.Pairwise.nil)
    exact h.imp (fun hab => (sortRel_oldest_iff _ _).mp hab)

/-- Claim C7: a payload that fails to parse as JSON is swallowed by the
handler's `catch`: the state — collection, flags, timers, connection —
is returned unchanged, so the reducer neither crashes nor closes the
connection. -/
theorem malformed_payload_noop (s : HookState) (now : String) :
    onMessage now s none = s := rfl

/-- Claim C8: a successful handshake starts the 3000 ms initial-wait
timer and sets loading; the timer firing ends loading (empty result
becomes valid); and an admitted message cancels the pending timer and
ends loading immediately. -/
theorem initial_wait_timer (s : HookState) (data : EventData) (now : String)
    (h : data.queue = s.queueName) :
    (onOpen s).loadingTimeout = some 3000 ∧ (onOpen s).isLoading = true ∧
    (loadingTimeoutFires s).isLoading = false ∧
    (loadingTimeoutFires s).loadingTimeout = none ∧
    (onMessage now s (some data)).loadingTimeout = none ∧
    (onMessage now s (some data)).isLoading = false := by
  refine ⟨rfl, rfl, rfl, rfl, ?_, ?_⟩ <;>
  · simp only [onMessage]
    rw [if_neg (fun hne => hne h)]

/-- Witness for C8 at a concrete state and admitted event. -/
theorem initial_wait_timer_witness :
    (onOpen sSmall).loadingTimeout = some 3000 ∧ (onOpen sSmall).isLoading = true ∧
    (loadingTimeoutFires sSmall).isLoading = false ∧
    (loadingTimeoutFires sSmall).loadingTimeout = none ∧
    (onMessage ("") sSmall (some ⟨("q"), dupMsg⟩)).loadingTimeout = none ∧
    (onMessage ("") sSmall (some ⟨("q"), dupMsg⟩)).isLoading = false :=
  initial_wait_timer sSmall ⟨("q"), dupMsg⟩ ("") rfl

/-- Claim C9: `clearMessages` empties the collection and leaves every
other piece of state — selected queue, sort order, connection, flags,
error and both pending timers — exactly as it was. -/
theorem clearMessages_frame_effect (s : HookState) :
    (clearMessages s).messages = [] ∧
    (clearMessages s).queueName = s.queueName ∧
    (clearMessages s).sortOrder = s.sortOrder ∧
    (clearMessages s).isConnected = s.isConnected ∧
    (clearMessages s).isLoading = s.isLoading ∧
    (clearMessages s).error = s.error ∧
    (clearMessages s).wsAlive = s.wsAlive ∧
    (clearMessages s).reconnectTimeout = s.reconnectTimeout ∧
    (clearMessages s).loadingTimeout = s.loadingTimeout :=
  ⟨rfl, rfl, rfl, rfl, rfl, rfl, rfl, rfl, rfl⟩

/-- Claim C10: a message whose attribute mapping has no `SentTimestamp`
entry gets sent-time 0 (`parseInt('0')`), and in a merged collection
under the default ascending order every such entry is placed strictly
before every entry with a positive parsed `SentTimestamp`. -/
theorem missing_sentTimestamp_sorts_first (x : Message)
    (hx0 : x.attributes.lookup ("SentTimestamp") = none)
    (prev : List Message) (m : Message)
    (i j : Fin (mergeMessage ("oldest-first") prev m).length)
    (hi : ((mergeMessage ("oldest-first") prev m).get i).attributes.lookup
      ("SentTimestamp") = none)
    (hj : 0 < sentTime ((mergeMessage ("oldest-first") prev m).get j)) :
    sentTime x = 0 ∧ (i : Nat) < (j : Nat) := by
  have hzero : ∀ y : Message, y.attributes.lookup ("SentTimestamp") = none →
      sentTime y = 0 := by
    intro y hy
    unfold sentTime
    rw [hy]
    rfl
  refine ⟨hzero x hx0, ?_⟩
  have hget := List.pairwise_iff_get.mp (sorted_mergeMessage ("oldest-first") prev m)
  rcases Nat.lt_trichotomy (i : Nat) (j : Nat) with h | h | h
  · exact h
  · exfalso
    have hij : i = j := Fin.ext h
    subst hij
    rw [hzero _ hi] at hj
    exact Nat.lt_irrefl 0 hj
  · exfalso
    have hle := hget j i (Fin.lt_def.mpr h)
    rw [sortRel_oldest_iff, hzero _ hi] at hle
    omega

/-- Witness for C10: merging a positive-sent-time message into a
collection holding an attribute-less message places the latter first. -/
theorem missing_sentTimestamp_sorts_first_witness :
    sentTime msgNoTs = 0 ∧
    ((⟨0, by decide⟩ : Fin (mergeMessage ("oldest-first") [msgNoTs] msgPosTs).length) : Nat) <
      ((⟨1, by decide⟩ : Fin (mergeMessage ("oldest-first") [msgNoTs] msgPosTs).length) : Nat) :=
  missing_sentTimestamp_sorts_first msgNoTs (by decide) [msgNoTs] msgPosTs
    ⟨0, by decide⟩ ⟨1, by decide⟩ (by decide) (by decide)

end QueueMessages
